import Mathlib

/-!
Verification of the calendar selection engine
(`src/src/Vue3DatePicker/utils/composition/calendar.ts`) and of the menu
positioning engine (`src/src/VueDatePicker/components/composables/position.ts`)
of the custom-vue-datepicker repository.

The engines are embedded shallowly: reactive refs become fields of an explicit
state record, the `v-model` computed setter becomes an explicit model write that
also replays the `watch`-triggered remapping, and emitted events are collected
in a list.  The repository does not ship `date-utils.ts` or `type-guard.ts`
(only their callers are under `src/`), so those pure helpers are modelled from
the spec and are marked as such in their doc comments.
-/

namespace DatePicker

/-- Calendar date-time value: the components of a JS `Date` that the picker
reads and writes (year, 0-based month index, day of month, hours, minutes). -/
structure SimpleDate where
  year : Int
  month : Int
  day : Int
  hours : Int
  minutes : Int
deriving DecidableEq, Repr

/-- Modelled from the spec: `getDateHours` of the missing `date-utils` module
extracts the hour component of a date. -/
def getDateHours (d : SimpleDate) : Int := d.hours

/-- Modelled from the spec: `getDateMinutes` extracts the minute component. -/
def getDateMinutes (d : SimpleDate) : Int := d.minutes

/-- Modelled from the spec: `getDateMonth` extracts the 0-based month index. -/
def getDateMonth (d : SimpleDate) : Int := d.month

/-- Modelled from the spec: `getDateYear` extracts the year. -/
def getDateYear (d : SimpleDate) : Int := d.year

/-- Date-only key (year, month, day).  The spec states that the date
comparison helpers work at exact-date granularity, ignoring time of day. -/
def dateKey (d : SimpleDate) : Int × Int × Int := (d.year, d.month, d.day)

/-- Lexicographic strictly-before test on date-only keys. -/
def keyBefore (a b : Int × Int × Int) : Bool :=
  decide (a.1 < b.1 ∨ (a.1 = b.1 ∧ (a.2.1 < b.2.1 ∨ (a.2.1 = b.2.1 ∧ a.2.2 < b.2.2))))

/-- Modelled from the spec: `isDateBefore` of the missing `date-utils` module
compares two dates at exact-date granularity, ignoring time of day. -/
def isDateBefore (a b : SimpleDate) : Bool := keyBefore (dateKey a) (dateKey b)

/-- Modelled from the spec: `isDateAfter` compares two dates at exact-date
granularity, ignoring time of day. -/
def isDateAfter (a b : SimpleDate) : Bool := keyBefore (dateKey b) (dateKey a)

/-- Modelled from the spec: `isDateEqual` is exact-date equality. -/
def isDateEqual (a b : SimpleDate) : Bool := decide (dateKey a = dateKey b)

/-- Modelled from the spec: `setDateTime` constructs a new date with the
time-of-day components replaced and the calendar components kept. -/
def setDateTime (d : SimpleDate) (h m : Int) : SimpleDate :=
  { d with hours := h, minutes := m }

/-- The `hours`/`minutes` refs hold `number | number[]` in the source. -/
inductive NumOrArr where
  | num (n : Int)
  | arr (ns : List Int)
deriving DecidableEq, Repr

/-- Modelled from the spec: the `isNumberArray` type guard of the missing
`type-guard.ts` module tests whether the value is a number array. -/
def isNumberArray : NumOrArr → Bool
  | NumOrArr.arr _ => true
  | NumOrArr.num _ => false

/-- Numeric projection for the source's `as number` casts; the source only
applies the cast where a guard has already established a scalar, so the
fallback is never relied upon by any theorem. -/
def NumOrArr.asNum : NumOrArr → Int
  | NumOrArr.num n => n
  | NumOrArr.arr _ => 0

/-- Array projection for the source's guarded array accesses. -/
def NumOrArr.asArr : NumOrArr → List Int
  | NumOrArr.arr ns => ns
  | NumOrArr.num _ => []

/-- JS array indexing `xs[i]` on a number array; the source only indexes
pair-shaped arrays at 0 and 1, so the out-of-range default is never relied
upon by any theorem. -/
def jsIndex (l : List Int) (i : Nat) : Int := l.getD i 0

/-- JS array indexing on a date array, same convention as `jsIndex`. -/
def jsDateIndex (l : List SimpleDate) (i : Nat) : SimpleDate :=
  l.getD i ⟨0, 0, 0, 0, 0⟩

/-- `InternalModuleValue = Date | Date[] | null` from the interfaces file. -/
inductive InternalModuleValue where
  | none
  | single (d : SimpleDate)
  | range (ds : List SimpleDate)
deriving DecidableEq, Repr

/-- JS truthiness of the model value: `null` is falsy; a `Date` and any array
(including the empty array) are truthy. -/
def truthy : InternalModuleValue → Bool
  | InternalModuleValue.none => false
  | _ => true

/-- Modelled from the spec: the `isModelValueRange` type guard tests whether
the model value is an array. -/
def isModelValueRange : InternalModuleValue → Bool
  | InternalModuleValue.range _ => true
  | _ => false

/-- Modelled from the spec: the `isRange` type guard tests whether the value
is a two-element date range. -/
def isRange : InternalModuleValue → Bool
  | InternalModuleValue.range [_, _] => true
  | _ => false

/-- Underlying list of a range model value. -/
def rangeList : InternalModuleValue → List SimpleDate
  | InternalModuleValue.range ds => ds
  | _ => []

/-- The source's `(modelValue.value as Date) ` cast; the guards in the source
only reach it on a single date, so the fallback is never relied upon by any
theorem. -/
def castToDate : InternalModuleValue → SimpleDate
  | InternalModuleValue.single d => d
  | _ => ⟨0, 0, 0, 0, 0⟩

/-- `ICalendarDay` from the interfaces file (style data omitted as it is
never read by the engine). -/
structure CalendarDay where
  text : Int
  value : SimpleDate
  current : Bool
deriving DecidableEq, Repr

/-- The `months` field of `IDateFilter`; the `years` and `times` filters are
never read by the calendar engine. -/
structure IDateFilter where
  months : List Int
deriving DecidableEq, Repr

/-- `ITimeValue` from the interfaces file. -/
structure ITimeValue where
  hours : Int
  minutes : Int
deriving DecidableEq, Repr

/-- `startTime` prop: a single time value or a pair (`ITimeValue[]`). -/
inductive StartTime where
  | one (t : ITimeValue)
  | two (t0 t1 : ITimeValue)
deriving DecidableEq, Repr

/-- Modelled from the spec: the `isTimeArr` type guard tests whether the
start-time value is an array of time values. -/
def isTimeArr : StartTime → Bool
  | StartTime.two _ _ => true
  | StartTime.one _ => false

/-- The calendar props read by `useCalendar`.  `maxDate`, `minDate`,
`startDate` and `startTime` are optional (absent models the falsy default);
`disabledDates`, `filters` and `yearRange` are always present. -/
structure CalendarProps where
  range : Bool
  maxDate : Option SimpleDate
  minDate : Option SimpleDate
  disabledDates : List SimpleDate
  filters : IDateFilter
  yearRange : Int × Int
  autoApply : Bool
  monthPicker : Bool
  timePicker : Bool
  startDate : Option SimpleDate
  startTime : Option StartTime
deriving DecidableEq, Repr

/-- The reactive state of `useCalendar`: the `month`, `year`, `hours`,
`minutes` and `hoveredDate` refs, together with the host-owned model value
read and written through the `modelValue` computed binding. -/
structure EngineState where
  month : Int
  year : Int
  hours : NumOrArr
  minutes : NumOrArr
  hoveredDate : Option SimpleDate
  modelValue : InternalModuleValue
deriving DecidableEq, Repr

/-- Events emitted by the engine: the `update:internalModelValue` write of the
`modelValue` computed setter, and the `autoApply` signal. -/
inductive CalendarEvent where
  | updateInternalModelValue (v : InternalModuleValue)
  | autoApply
deriving DecidableEq, Repr

/-- `isDisabled` from calendar.ts lines 87-99: date after max, before min, in
the disabled list, in the excluded months, or outside the year range.  The
source's `filters.months.length ? filters.months.map(m => +m) : []` is the
identity on an integer month list. -/
def isDisabled (props : CalendarProps) (date : SimpleDate) : Bool :=
  let aboveMax :=
    match props.maxDate with
    | some mx => isDateAfter date mx
    | Option.none => false
  let bellowMin :=
    match props.minDate with
    | some mn => isDateBefore date mn
    | Option.none => false
  let inDisableArr := props.disabledDates.any (fun disabledDate => isDateEqual disabledDate date)
  let disabledMonths := props.filters.months
  let inDisabledMonths := disabledMonths.contains (getDateMonth date)
  let dateYear := getDateYear date
  let outOfYearRange :=
    decide (dateYear < props.yearRange.1) || decide (dateYear > props.yearRange.2)
  aboveMax || bellowMin || inDisableArr || inDisabledMonths || outOfYearRange

/-- `mapInternalModuleValues` from calendar.ts lines 153-167: pull month,
year, hours and minutes out of the current model value. -/
def mapInternalModuleValues (s : EngineState) : EngineState :=
  match s.modelValue with
  | InternalModuleValue.none => s
  | InternalModuleValue.range ds =>
    match ds with
    | [d0, d1] =>
      { s with month := getDateMonth d0, year := getDateYear d0,
               hours := NumOrArr.arr [getDateHours d0, getDateHours d1],
               minutes := NumOrArr.arr [getDateMinutes d0, getDateMinutes d1] }
    | _ => s
  | InternalModuleValue.single d =>
    { s with month := getDateMonth d, year := getDateYear d,
             hours := NumOrArr.num (getDateHours d),
             minutes := NumOrArr.num (getDateMinutes d) }

/-- A write through the `modelValue` computed setter: emits
`update:internalModelValue` to the host (which owns the value), after which
the `watch` on the binding replays `mapInternalModuleValues`. -/
def writeModel (s : EngineState) (v : InternalModuleValue) :
    EngineState × List CalendarEvent :=
  (mapInternalModuleValues { s with modelValue := v },
   [CalendarEvent.updateInternalModelValue v])

/-- Result of an engine operation: the new state and emitted events, or a JS
`TypeError` (thrown before any write, so no state is committed). -/
inductive StepResult where
  | ok (s : EngineState) (evs : List CalendarEvent)
  | typeError
deriving DecidableEq, Repr

/-- `selectDate` from calendar.ts lines 173-207.  The range branch's
`(modelValue.value as Date[]).slice()` throws a `TypeError` when the model is
a bare `Date` (a `Date` has no `slice` method). -/
def selectDate (props : CalendarProps) (s : EngineState) (day : CalendarDay) :
    StepResult :=
  if isDisabled props day.value then StepResult.ok s []
  else if !props.range && !isNumberArray s.hours && !isNumberArray s.minutes then
    let v := InternalModuleValue.single (setDateTime day.value s.hours.asNum s.minutes.asNum)
    let w := writeModel s v
    StepResult.ok w.1 (w.2 ++ (if props.autoApply then [CalendarEvent.autoApply] else []))
  else if isNumberArray s.hours && isNumberArray s.minutes then
    match s.modelValue with
    | InternalModuleValue.single _ => StepResult.typeError
    | m =>
      let sliced := rangeList m
      let base := if sliced.length = 2 then [] else sliced
      let inserted :=
        match base with
        | [] => [day.value]
        | d0 :: rest =>
          if isDateBefore day.value d0 then day.value :: d0 :: rest
          else
            match rest with
            | [] => [d0, day.value]
            | _ :: rest2 => d0 :: day.value :: rest2
      let hs := s.hours.asArr
      let ms := s.minutes.asArr
      let rangeDate :=
        match inserted with
        | [r0] => [setDateTime r0 (jsIndex hs 0) (jsIndex ms 0)]
        | r0 :: r1 :: rest =>
          setDateTime r0 (jsIndex hs 0) (jsIndex ms 0) ::
            setDateTime r1 (jsIndex hs 1) (jsIndex ms 1) :: rest
        | [] => []
      let w := writeModel s (InternalModuleValue.range rangeDate)
      StepResult.ok w.1
        (w.2 ++ (if decide (2 ≤ rangeDate.length) && props.autoApply
                 then [CalendarEvent.autoApply] else []))
  else StepResult.ok s []

/-- `setHoverDate` from calendar.ts lines 223-225. -/
def setHoverDate (s : EngineState) (day : CalendarDay) : EngineState :=
  { s with hoveredDate := some day.value }

/-- `handleTimeUpdate` from calendar.ts lines 245-254: merge the current
hour/minute state into the given date value, per endpoint for a range pair,
as a scalar otherwise; mismatched shapes fall through without a write. -/
def handleTimeUpdate (props : CalendarProps) (s : EngineState)
    (dateValue : InternalModuleValue) : EngineState × List CalendarEvent :=
  if isRange dateValue && isNumberArray s.hours && isNumberArray s.minutes then
    let ds := rangeList dateValue
    let hs := s.hours.asArr
    let ms := s.minutes.asArr
    writeModel s (InternalModuleValue.range
      [setDateTime (jsDateIndex ds 0) (jsIndex hs 0) (jsIndex ms 0),
       setDateTime (jsDateIndex ds 1) (jsIndex hs 1) (jsIndex ms 1)])
  else if !props.range && !isRange dateValue then
    writeModel s (InternalModuleValue.single
      (setDateTime (castToDate dateValue) s.hours.asNum s.minutes.asNum))
  else (s, [])

/-- `updateTime` from calendar.ts lines 259-270.  `now` stands for the
`new Date()` values synthesized in time-picker mode. -/
def updateTime (props : CalendarProps) (s : EngineState) (now : SimpleDate)
    (value : NumOrArr) (isHours : Bool) : EngineState × List CalendarEvent :=
  let s1 := if isHours then { s with hours := value } else { s with minutes := value }
  if truthy s1.modelValue then handleTimeUpdate props s1 s1.modelValue
  else if props.timePicker then
    handleTimeUpdate props s1
      (if props.range then InternalModuleValue.range [now, now]
       else InternalModuleValue.single now)
  else (s1, [])

/-- Ref initialization from calendar.ts lines 34-39: month and year from the
current date, hours and minutes as pairs in range mode and scalars otherwise;
`now` stands for `new Date()` at construction time and `initialModel` is the
host-supplied `internalModelValue`. -/
def initRefs (props : CalendarProps) (now : SimpleDate)
    (initialModel : InternalModuleValue) : EngineState :=
  { month := getDateMonth now, year := getDateYear now,
    hours := if props.range then NumOrArr.arr [getDateHours now, getDateHours now]
             else NumOrArr.num (getDateHours now),
    minutes := if props.range then NumOrArr.arr [getDateMinutes now, getDateMinutes now]
               else NumOrArr.num (getDateMinutes now),
    hoveredDate := Option.none,
    modelValue := initialModel }

/-- `assignStartTime` from calendar.ts lines 60-68. -/
def assignStartTime (s : EngineState) : StartTime → EngineState
  | StartTime.two t0 t1 =>
    { s with hours := NumOrArr.arr [t0.hours, t1.hours],
             minutes := NumOrArr.arr [t0.minutes, t1.minutes] }
  | StartTime.one t =>
    { s with hours := NumOrArr.num t.hours, minutes := NumOrArr.num t.minutes }

/-- The `onMounted` initialization from calendar.ts lines 41-53 on top of the
ref initialization: map the existing model value, and fall back to the
start-date/start-time seed only when the model value is falsy. -/
def initCalendar (props : CalendarProps) (now : SimpleDate)
    (initialModel : InternalModuleValue) : EngineState :=
  let s := mapInternalModuleValues (initRefs props now initialModel)
  if truthy s.modelValue then s
  else
    let s1 :=
      match props.startDate with
      | some sd => { s with month := getDateMonth sd, year := getDateYear sd }
      | Option.none => s
    match props.startTime with
    | some st => assignStartTime s1 st
    | Option.none => s1

/-- User-driven operations of the selection engine considered for the shape
invariant: clicking a day, hovering a day, and changing a time value. -/
inductive CalendarOp where
  | select (day : CalendarDay)
  | hover (day : CalendarDay)
  | setTime (now : SimpleDate) (value : NumOrArr) (isHours : Bool)
deriving DecidableEq, Repr

/-- State transition of one operation; a thrown `TypeError` leaves the state
unchanged (the source throws before any write). -/
def applyOp (props : CalendarProps) (s : EngineState) : CalendarOp → EngineState
  | CalendarOp.select day =>
    match selectDate props s day with
    | StepResult.ok s1 _ => s1
    | StepResult.typeError => s
  | CalendarOp.hover day => setHoverDate s day
  | CalendarOp.setTime now value isHours => (updateTime props s now value isHours).1

/-- The spec's shape invariant: hours and minutes are pairs exactly when the
range-mode flag is set. -/
def shapeMatches (props : CalendarProps) (s : EngineState) : Bool :=
  (isNumberArray s.hours == props.range) && (isNumberArray s.minutes == props.range)

/-- An operation whose payload shape agrees with the range-mode flag: a
`setTime` value must be a pair exactly in range mode; clicks and hovers carry
no shaped payload. -/
def shapeOk (props : CalendarProps) : CalendarOp → Bool
  | CalendarOp.setTime _ value _ => isNumberArray value == props.range
  | CalendarOp.select _ => true
  | CalendarOp.hover _ => true

/-- An initial model value whose shape agrees with the range-mode flag: a
single date only outside range mode, a two-element array only in range mode. -/
def initModelShapeOk (props : CalendarProps) : InternalModuleValue → Bool
  | InternalModuleValue.single _ => !props.range
  | InternalModuleValue.range ds => props.range || decide (ds.length ≠ 2)
  | InternalModuleValue.none => true

/-- A start-time seed whose shape agrees with the range-mode flag. -/
def startTimeShapeOk (props : CalendarProps) : Bool :=
  match props.startTime with
  | some st => isTimeArr st == props.range
  | Option.none => true

/-- Horizontal alignment configured through `props.position`
(`OpenPosition` from the interfaces file). -/
inductive OpenPosition where
  | left
  | center
  | right
deriving DecidableEq, Repr

/-- CSS transform written by the positioning engine; only the numeric
percentages are modelled. -/
inductive MenuTransform where
  | noTransform
  | translateX (pct : ℚ)
  | translateXY (xPct yPct : ℚ)
deriving DecidableEq, Repr

/-- The `menuPosition` style descriptor `{ top, left, transform, position? }`;
pixel values are modelled as rationals (JS numbers), `fixedPos` models the
optional `position: fixed`. -/
structure MenuPosition where
  top : ℚ
  left : ℚ
  transform : MenuTransform
  fixedPos : Bool
deriving DecidableEq, Repr

/-- The props read by `usePosition`.  `altPositionResult` models the case
where `altPosition` is a custom positioning function, abstracted by the style
descriptor it returns; the boolean `altPosition` flag only selects which
offset strategy produced the anchor offsets, which are inputs here. -/
structure PositionProps where
  position : OpenPosition
  offset : ℚ
  inline : Bool
  teleportCenter : Bool
  autoPosition : Bool
  altPositionResult : Option MenuPosition
deriving DecidableEq, Repr

/-- Geometry of the anchor (input) element, as supplied by the external
geometry provider: the page offsets computed by the selected offset strategy
and the viewport-relative bounding rectangle. -/
structure AnchorGeometry where
  offsetTop : ℚ
  offsetLeft : ℚ
  rectTop : ℚ
  rectLeft : ℚ
  width : ℚ
  height : ℚ
deriving DecidableEq, Repr

/-- The positioning engine's persistent state: the latest `menuPosition` and
the `openOnTop` flag. -/
structure PositionState where
  menuPosition : MenuPosition
  openOnTop : Bool
deriving DecidableEq, Repr

/-- The fixed `maxHeight` constant from position.ts line 19. -/
def maxHeight : ℚ := 390

/-- `setPositionLeft` from position.ts lines 57-60. -/
def setPositionLeft (left : ℚ) (st : PositionState) : PositionState :=
  { st with menuPosition :=
      { st.menuPosition with left := left, transform := MenuTransform.translateX 0 } }

/-- `setPositionRight` from position.ts lines 52-55. -/
def setPositionRight (left width : ℚ) (st : PositionState) : PositionState :=
  { st with menuPosition :=
      { st.menuPosition with
          left := left + width
          transform := MenuTransform.translateX (-100) } }

/-- `setPositioning` from position.ts lines 62-75: three sequential `if`s on
the configured alignment. -/
def setPositioning (props : PositionProps) (left width : ℚ)
    (st : PositionState) : PositionState :=
  let st1 := if props.position = OpenPosition.left then setPositionLeft left st else st
  let st2 := if props.position = OpenPosition.right then setPositionRight left width st1 else st1
  if props.position = OpenPosition.center then
    { st2 with menuPosition :=
        { st2.menuPosition with
            left := left + width / 2
            transform := MenuTransform.translateX (-50) } }
  else st2

/-- `teleportCenter` from position.ts lines 89-94; the `50` values stand for
the `50%` strings. -/
def teleportCenterPos (st : PositionState) : PositionState :=
  { st with menuPosition :=
      { top := 50, left := 50, transform := MenuTransform.translateXY (-50) (-50),
        fixedPos := true } }

/-- `setInitialPosition` from position.ts lines 77-87: first-pass placement
before the panel is measurable.  A missing anchor element short-circuits. -/
def setInitialPosition (props : PositionProps) (innerHeight : ℚ)
    (anchor : Option AnchorGeometry) (st : PositionState) : PositionState :=
  match anchor with
  | Option.none => st
  | some a =>
    let fullHeight := innerHeight
    let freeBottom := fullHeight - a.rectTop - a.height
    let st1 :=
      { st with menuPosition :=
          { st.menuPosition with
            top := if a.rectTop > freeBottom then a.offsetTop - maxHeight else a.offsetTop } }
    setPositioning props a.offsetLeft a.width st1

/-- `setMenuPosition(recalculate = false)` from position.ts lines 100-117:
the simple below placement (`top = anchor height + anchor offset + configured
offset` plus horizontal alignment); with `recalculate = false` the trailing
`recalculatePosition` call is skipped, which is the only form the vertical
flip logic invokes. -/
def setMenuPositionNoRecalc (props : PositionProps)
    (anchor : Option AnchorGeometry) (st : PositionState) : PositionState :=
  if props.inline then st
  else if props.teleportCenter then teleportCenterPos st
  else
    match props.altPositionResult with
    | some pos => { st with menuPosition := pos }
    | Option.none =>
      match anchor with
      | some a =>
        let st1 :=
          { st with menuPosition :=
              { st.menuPosition with top := a.height + a.offsetTop + props.offset } }
        setPositioning props a.offsetLeft a.width st1
      | Option.none => st

/-- `positionTopBottom` from position.ts lines 119-144: the vertical flip
decision over the measured panel height, anchor height, free space below,
anchor top and anchor page offset. -/
def positionTopBottom (props : PositionProps) (anchor : Option AnchorGeometry)
    (height inputHeight freeSpaceBottom top offset : ℚ)
    (st : PositionState) : PositionState :=
  let menuHeight := height + inputHeight
  if menuHeight > top ∧ menuHeight > freeSpaceBottom then
    if top < freeSpaceBottom then
      let st1 := setMenuPositionNoRecalc props anchor st
      { st1 with openOnTop := false }
    else
      { st with
        menuPosition := { st.menuPosition with top := offset - height - props.offset },
        openOnTop := true }
  else
    if menuHeight > freeSpaceBottom then
      { st with
        menuPosition := { st.menuPosition with top := offset - height - props.offset },
        openOnTop := true }
    else
      let st1 := setMenuPositionNoRecalc props anchor st
      { st1 with openOnTop := false }

/-- Sample configuration: range mode with auto-apply, no bounds or filters. -/
def sampleRangeProps : CalendarProps :=
  { range := true, maxDate := Option.none, minDate := Option.none,
    disabledDates := [], filters := ⟨[]⟩, yearRange := (1900, 2100),
    autoApply := true, monthPicker := false, timePicker := false,
    startDate := Option.none, startTime := Option.none }

/-- Sample configuration: single mode, no bounds or filters. -/
def sampleSingleProps : CalendarProps :=
  { sampleRangeProps with range := false }

/-- Sample construction-time clock value. -/
def sampleNow : SimpleDate := ⟨2024, 0, 15, 10, 30⟩

/-- Sample engine state: range mode, freshly initialized, empty model. -/
def sampleRangeState : EngineState :=
  initCalendar sampleRangeProps sampleNow InternalModuleValue.none

/-- Sample calendar day for January 10, 2024. -/
def dayJan10 : CalendarDay := ⟨10, ⟨2024, 0, 10, 0, 0⟩, true⟩

/-- Sample calendar day for January 5, 2024. -/
def dayJan5 : CalendarDay := ⟨5, ⟨2024, 0, 5, 0, 0⟩, true⟩

/-- Sample calendar day for January 20, 2024. -/
def dayJan20 : CalendarDay := ⟨20, ⟨2024, 0, 20, 0, 0⟩, true⟩

/-- Sample engine state holding a complete two-endpoint range. -/
def sampleFullRangeState : EngineState :=
  { sampleRangeState with modelValue := (InternalModuleValue.range
      [⟨2024, 0, 5, 10, 30⟩, ⟨2024, 0, 10, 10, 30⟩]) }

/-- Sample engine state holding a one-endpoint range (selection in
progress). -/
def sampleOneRangeState : EngineState :=
  { sampleRangeState with modelValue := (InternalModuleValue.range
      [⟨2024, 0, 10, 10, 30⟩]) }

/-- Sample positioning configuration: left alignment, no pixel offset. -/
def samplePosProps : PositionProps :=
  { position := OpenPosition.left, offset := 10, inline := false,
    teleportCenter := false, autoPosition := true,
    altPositionResult := Option.none }

/-- Sample anchor: 40 units tall, near the top of a 1000-unit viewport. -/
def sampleAnchorHigh : AnchorGeometry :=
  { offsetTop := 100, offsetLeft := 20, rectTop := 100, rectLeft := 20,
    width := 200, height := 40 }

/-- Initial positioning state, before any placement pass. -/
def samplePosState : PositionState :=
  { menuPosition := { top := 0, left := 0, transform := MenuTransform.noTransform,
                      fixedPos := false },
    openOnTop := false }

theorem setPositioning_top (props : PositionProps) (left width : ℚ)
    (st : PositionState) :
    (setPositioning props left width st).menuPosition.top = st.menuPosition.top := by
  rcases hp : props.position <;>
    simp [setPositioning, setPositionLeft, setPositionRight, hp]

theorem keyBefore_asymm {a b : Int × Int × Int} (h : keyBefore a b = true) :
    keyBefore b a = false := by
  rcases a with ⟨a1, a2, a3⟩
  rcases b with ⟨b1, b2, b3⟩
  simp only [keyBefore, decide_eq_true_eq, decide_eq_false_iff_not] at h ⊢
  omega

theorem mapInternalModuleValues_modelValue (s : EngineState) :
    (mapInternalModuleValues s).modelValue = s.modelValue := by
  rcases s with ⟨mo, y, h, m, hov, mv⟩
  rcases mv with _ | d | ds
  · rfl
  · rfl
  · rcases ds with _ | ⟨d0, _ | ⟨d1, _ | _⟩⟩ <;> rfl

theorem selectDate_range_fresh (props : CalendarProps) (s : EngineState)
    (day : CalendarDay) (hs ms : List Int)
    (hh : s.hours = NumOrArr.arr hs) (hm : s.minutes = NumOrArr.arr ms)
    (hd : isDisabled props day.value = false)
    (hmodel : s.modelValue = InternalModuleValue.none ∨
      s.modelValue = InternalModuleValue.range [] ∨
      ∃ a b, s.modelValue = InternalModuleValue.range [a, b]) :
    selectDate props s day =
      StepResult.ok
        { s with modelValue := (InternalModuleValue.range
            [setDateTime day.value (jsIndex hs 0) (jsIndex ms 0)]) }
        [CalendarEvent.updateInternalModelValue (InternalModuleValue.range
            [setDateTime day.value (jsIndex hs 0) (jsIndex ms 0)])] := by
  rcases hmodel with h0 | h0 | ⟨a, b, h0⟩ <;>
    simp [selectDate, hd, hh, hm, isNumberArray, h0, rangeList, writeModel,
      mapInternalModuleValues, NumOrArr.asArr]

theorem selectDate_range_second_before (props : CalendarProps) (s : EngineState)
    (day : CalendarDay) (c : SimpleDate) (hs ms : List Int)
    (hh : s.hours = NumOrArr.arr hs) (hm : s.minutes = NumOrArr.arr ms)
    (hd : isDisabled props day.value = false)
    (hmodel : s.modelValue = InternalModuleValue.range [c])
    (hb : isDateBefore day.value c = true) :
    selectDate props s day =
      StepResult.ok
        (mapInternalModuleValues { s with modelValue := (InternalModuleValue.range
            [setDateTime day.value (jsIndex hs 0) (jsIndex ms 0),
             setDateTime c (jsIndex hs 1) (jsIndex ms 1)]) })
        ([CalendarEvent.updateInternalModelValue (InternalModuleValue.range
            [setDateTime day.value (jsIndex hs 0) (jsIndex ms 0),
             setDateTime c (jsIndex hs 1) (jsIndex ms 1)])] ++
          (if props.autoApply then [CalendarEvent.autoApply] else [])) := by
  simp [selectDate, hd, hh, hm, isNumberArray, hmodel, rangeList, writeModel,
    NumOrArr.asArr, hb]

theorem selectDate_range_second_after (props : CalendarProps) (s : EngineState)
    (day : CalendarDay) (c : SimpleDate) (hs ms : List Int)
    (hh : s.hours = NumOrArr.arr hs) (hm : s.minutes = NumOrArr.arr ms)
    (hd : isDisabled props day.value = false)
    (hmodel : s.modelValue = InternalModuleValue.range [c])
    (hb : isDateBefore day.value c = false) :
    selectDate props s day =
      StepResult.ok
        (mapInternalModuleValues { s with modelValue := (InternalModuleValue.range
            [setDateTime c (jsIndex hs 0) (jsIndex ms 0),
             setDateTime day.value (jsIndex hs 1) (jsIndex ms 1)]) })
        ([CalendarEvent.updateInternalModelValue (InternalModuleValue.range
            [setDateTime c (jsIndex hs 0) (jsIndex ms 0),
             setDateTime day.value (jsIndex hs 1) (jsIndex ms 1)])] ++
          (if props.autoApply then [CalendarEvent.autoApply] else [])) := by
  simp [selectDate, hd, hh, hm, isNumberArray, hmodel, rangeList, writeModel,
    NumOrArr.asArr, hb]

theorem shapeMatches_modelWrite (p : CalendarProps) (s : EngineState)
    (v : InternalModuleValue) :
    shapeMatches p { s with modelValue := v } = shapeMatches p s := rfl

theorem writeModel_shape_single (p : CalendarProps) (s : EngineState)
    (d : SimpleDate) (h : p.range = false) :
    shapeMatches p (writeModel s (InternalModuleValue.single d)).1 = true := by
  simp [writeModel, mapInternalModuleValues, shapeMatches, isNumberArray, h]

theorem writeModel_shape_pair (p : CalendarProps) (s : EngineState)
    (ds : List SimpleDate) (h : p.range = true) (hlen : ds.length = 2) :
    shapeMatches p (writeModel s (InternalModuleValue.range ds)).1 = true := by
  rcases ds with _ | ⟨a, _ | ⟨b, _ | ⟨c, t⟩⟩⟩
  · simp at hlen
  · simp at hlen
  · simp [writeModel, mapInternalModuleValues, shapeMatches, isNumberArray, h]
  · simp at hlen

theorem writeModel_shape_other (p : CalendarProps) (s : EngineState)
    (ds : List SimpleDate) (hsm : shapeMatches p s = true) (hlen : ds.length ≠ 2) :
    shapeMatches p (writeModel s (InternalModuleValue.range ds)).1 = true := by
  rcases ds with _ | ⟨a, _ | ⟨b, _ | ⟨c, t⟩⟩⟩
  · simpa [writeModel, mapInternalModuleValues, shapeMatches] using hsm
  · simpa [writeModel, mapInternalModuleValues, shapeMatches] using hsm
  · simp at hlen
  · simpa [writeModel, mapInternalModuleValues, shapeMatches] using hsm

theorem writeModel_shape_any (p : CalendarProps) (s : EngineState)
    (ds : List SimpleDate) (hsm : shapeMatches p s = true) (hr : p.range = true) :
    shapeMatches p (writeModel s (InternalModuleValue.range ds)).1 = true := by
  by_cases hlen : ds.length = 2
  · exact writeModel_shape_pair p s ds hr hlen
  · exact writeModel_shape_other p s ds hsm hlen

theorem selectDate_shape (p : CalendarProps) (s : EngineState) (day : CalendarDay)
    (hsm : shapeMatches p s = true) :
    ∀ s1 evs, selectDate p s day = StepResult.ok s1 evs →
      shapeMatches p s1 = true := by
  intro s1 evs h
  by_cases hdis : isDisabled p day.value = true
  · simp [selectDate, hdis] at h
    exact h.1 ▸ hsm
  · replace hdis : isDisabled p day.value = false :=
      Bool.not_eq_true _ ▸ Bool.of_not_eq_true hdis
    rcases hhours : s.hours with n | hs <;> rcases hmins : s.minutes with m | ms
    · -- both scalars: the single-date branch runs and the flag must be false
      have hr : p.range = false := by
        cases hpr : p.range
        · rfl
        · rw [shapeMatches, hhours, hmins, hpr] at hsm
          exact absurd hsm (by simp [isNumberArray])
      simp [selectDate, hdis, hhours, hmins, isNumberArray, hr] at h
      exact h.1 ▸ writeModel_shape_single p s _ hr
    · exact absurd hsm (by cases hpr : p.range <;>
        simp [shapeMatches, hhours, hmins, isNumberArray, hpr])
    · exact absurd hsm (by cases hpr : p.range <;>
        simp [shapeMatches, hhours, hmins, isNumberArray, hpr])
    · -- both arrays: any write of the range branch keeps pair shapes
      have hr : p.range = true := by
        cases hpr : p.range
        · rw [shapeMatches, hhours, hmins, hpr] at hsm
          exact absurd hsm (by simp [isNumberArray])
        · rfl
      rcases hmv : s.modelValue with _ | d | ds
      · simp only [selectDate, hdis, hhours, hmins, isNumberArray, hmv, hr,
          Bool.not_true, Bool.not_false, Bool.false_and, Bool.and_false,
          Bool.and_self, Bool.and_true, Bool.true_and, if_false, if_true,
          ite_false, ite_true, Bool.false_eq_true, rangeList] at h
        split at h <;>
          · rw [StepResult.ok.injEq] at h
            exact h.1 ▸ writeModel_shape_any p s _ hsm hr
      · simp [selectDate, hdis, hhours, hmins, isNumberArray, hmv, hr] at h
      · simp only [selectDate, hdis, hhours, hmins, isNumberArray, hmv, hr,
          Bool.not_true, Bool.not_false, Bool.false_and, Bool.and_false,
          Bool.and_self, Bool.and_true, Bool.true_and, if_false, if_true,
          ite_false, ite_true, Bool.false_eq_true, rangeList] at h
        split at h <;> split at h <;>
          · rw [StepResult.ok.injEq] at h
            exact h.1 ▸ writeModel_shape_any p s _ hsm hr

theorem handleTimeUpdate_shape (p : CalendarProps) (s : EngineState)
    (dv : InternalModuleValue) (hsm : shapeMatches p s = true) :
    shapeMatches p (handleTimeUpdate p s dv).1 = true := by
  by_cases h1 : (isRange dv && isNumberArray s.hours && isNumberArray s.minutes) = true
  · have hr : p.range = true := by
      have harr : isNumberArray s.hours = true := by
        rcases Bool.and_eq_true_iff.mp h1 with ⟨h1a, _⟩
        exact (Bool.and_eq_true_iff.mp h1a).2
      cases hpr : p.range
      · rw [shapeMatches, harr, hpr] at hsm
        exact absurd ((Bool.and_eq_true_iff.mp hsm).1) (by simp)
      · rfl
    simp only [handleTimeUpdate, h1, if_true, ite_true]
    exact writeModel_shape_pair p s _ hr (by simp)
  · by_cases h2 : (!p.range && !isRange dv) = true
    · have hr : p.range = false := by
        rcases Bool.and_eq_true_iff.mp h2 with ⟨h2a, _⟩
        simpa using h2a
      simp only [handleTimeUpdate, h1, h2, if_true, ite_true, if_false, ite_false,
        Bool.false_eq_true]
      exact writeModel_shape_single p s _ hr
    · simpa [handleTimeUpdate, h1, h2] using hsm

theorem updateTime_shape (p : CalendarProps) (s : EngineState) (now : SimpleDate)
    (value : NumOrArr) (isHours : Bool) (hsm : shapeMatches p s = true)
    (hval : (isNumberArray value == p.range) = true) :
    shapeMatches p (updateTime p s now value isHours).1 = true := by
  have key : ∀ s1 : EngineState, shapeMatches p s1 = true →
      shapeMatches p
        (if truthy s1.modelValue = true then handleTimeUpdate p s1 s1.modelValue
         else if p.timePicker = true then
           handleTimeUpdate p s1
             (if p.range = true then InternalModuleValue.range [now, now]
              else InternalModuleValue.single now)
         else (s1, [])).1 = true := by
    intro s1 hs1
    split
    · exact handleTimeUpdate_shape p s1 _ hs1
    · split
      · exact handleTimeUpdate_shape p s1 _ hs1
      · exact hs1
  cases isHours
  · exact key { s with minutes := value } (by
      rw [shapeMatches, Bool.and_eq_true_iff] at hsm
      simp [shapeMatches, hval, hsm.1])
  · exact key { s with hours := value } (by
      rw [shapeMatches, Bool.and_eq_true_iff] at hsm
      simp [shapeMatches, hval, hsm.2])

theorem applyOp_shape (p : CalendarProps) (s : EngineState) (op : CalendarOp)
    (hsm : shapeMatches p s = true) (hop : shapeOk p op = true) :
    shapeMatches p (applyOp p s op) = true := by
  cases op with
  | select day =>
    cases hsel : selectDate p s day with
    | ok s1 evs =>
      simp only [applyOp, hsel]
      exact selectDate_shape p s day hsm s1 evs hsel
    | typeError =>
      simp only [applyOp, hsel]
      exact hsm
  | hover day => simpa [applyOp, setHoverDate, shapeMatches] using hsm
  | setTime now value isHours =>
    exact updateTime_shape p s now value isHours hsm hop

theorem foldl_applyOp_shape (p : CalendarProps) (ops : List CalendarOp) :
    ∀ s : EngineState, shapeMatches p s = true →
      (∀ op ∈ ops, shapeOk p op = true) →
      shapeMatches p (ops.foldl (applyOp p) s) = true := by
  induction ops with
  | nil => intro s hs _; simpa using hs
  | cons op rest ih =>
    intro s hs hops
    rw [List.foldl_cons]
    exact ih _ (applyOp_shape p s op hs (hops op (List.mem_cons_self op rest)))
      (fun o ho => hops o (List.mem_cons_of_mem op ho))

theorem initCalendar_shape (p : CalendarProps) (now : SimpleDate)
    (im : InternalModuleValue) (him : initModelShapeOk p im = true)
    (hst : startTimeShapeOk p = true) :
    shapeMatches p (initCalendar p now im) = true := by
  have hrefs : shapeMatches p (initRefs p now im) = true := by
    cases hpr : p.range <;> simp [initRefs, shapeMatches, isNumberArray, hpr]
  rcases im with _ | d | ds
  · have hmap : mapInternalModuleValues (initRefs p now InternalModuleValue.none) =
        initRefs p now InternalModuleValue.none := rfl
    rw [initCalendar, hmap]
    simp only [initRefs, truthy, Bool.false_eq_true, if_false, ite_false]
    rcases hsd : p.startDate with _ | sd <;> rcases hstt : p.startTime with _ | st
    · exact hrefs
    · rcases st with t | ⟨t0, t1⟩ <;>
        · rw [startTimeShapeOk, hstt] at hst
          simp only [isTimeArr] at hst
          cases hpr : p.range <;> rw [hpr] at hst <;> simp at hst <;>
            simp [assignStartTime, shapeMatches, isNumberArray, hpr]
    · simpa [shapeMatches] using hrefs
    · rcases st with t | ⟨t0, t1⟩ <;>
        · rw [startTimeShapeOk, hstt] at hst
          simp only [isTimeArr] at hst
          cases hpr : p.range <;> rw [hpr] at hst <;> simp at hst <;>
            simp [assignStartTime, shapeMatches, isNumberArray, hpr]
  · have hr : p.range = false := by
      rw [initModelShapeOk] at him
      simpa using him
    rw [initCalendar]
    simp [mapInternalModuleValues, initRefs, truthy, shapeMatches, isNumberArray, hr]
  · rw [initCalendar]
    rcases ds with _ | ⟨d0, _ | ⟨d1, _ | ⟨d2, t⟩⟩⟩
    · simpa [mapInternalModuleValues, truthy, initRefs, shapeMatches] using hrefs
    · simpa [mapInternalModuleValues, truthy, initRefs, shapeMatches] using hrefs
    · have hr : p.range = true := by
        rw [initModelShapeOk] at him
        simpa using him
      simp [mapInternalModuleValues, truthy, initRefs, shapeMatches, isNumberArray, hr]
    · simpa [mapInternalModuleValues, truthy, initRefs, shapeMatches] using hrefs

/-- C2: `isDisabled` is true exactly when the date is after the configured
max, before the configured min, exact-date-equal to a disabled entry, has its
month in the excluded-months filter, or has its year outside the inclusive
year range; an absent max, min or filter never disables. -/
theorem isDisabled_iff_five_conditions (props : CalendarProps) (d : SimpleDate) :
    isDisabled props d = true ↔
      ((∃ mx, props.maxDate = some mx ∧ isDateAfter d mx = true) ∨
       (∃ mn, props.minDate = some mn ∧ isDateBefore d mn = true) ∨
       (∃ dd ∈ props.disabledDates, isDateEqual dd d = true) ∨
       getDateMonth d ∈ props.filters.months ∨
       (getDateYear d < props.yearRange.1 ∨ getDateYear d > props.yearRange.2)) := by
  rcases hmx : props.maxDate with _ | mx <;>
    rcases hmn : props.minDate with _ | mn <;>
      simp [isDisabled, hmx, hmn, List.any_eq_true, or_assoc]

/-- C5: clicking a disabled day is a complete no-op — the state (month, year,
hours, minutes, hovered date, model value) is unchanged and no event is
emitted. -/
theorem selectDate_disabled_noop (props : CalendarProps) (s : EngineState)
    (day : CalendarDay) (hd : isDisabled props day.value = true) :
    selectDate props s day = StepResult.ok s [] := by
  simp [selectDate, hd]

/-- Witness for C5 at a concrete disabled input (year 1800 is outside the
configured year range 1900-2100). -/
theorem selectDate_disabled_noop_witness :
    isDisabled sampleRangeProps (⟨1800, 0, 1, 0, 0⟩ : SimpleDate) = true ∧
      selectDate sampleRangeProps sampleRangeState ⟨1, ⟨1800, 0, 1, 0, 0⟩, true⟩ =
        StepResult.ok sampleRangeState [] :=
  ⟨by decide, selectDate_disabled_noop sampleRangeProps sampleRangeState
    ⟨1, ⟨1800, 0, 1, 0, 0⟩, true⟩ (by decide)⟩

/-- C3: in range mode with a complete two-endpoint range stored, a further
click on a non-disabled day restarts the selection: the new model value is a
one-element range holding only the clicked date (with the first time slot
applied); neither old endpoint survives. -/
theorem selectDate_third_click_resets (props : CalendarProps) (s : EngineState)
    (day : CalendarDay) (hs ms : List Int) (a b : SimpleDate)
    (hr : props.range = true)
    (hh : s.hours = NumOrArr.arr hs) (hm : s.minutes = NumOrArr.arr ms)
    (hd : isDisabled props day.value = false)
    (hmodel : s.modelValue = InternalModuleValue.range [a, b]) :
    selectDate props s day =
      StepResult.ok
        { s with modelValue := (InternalModuleValue.range
            [setDateTime day.value (jsIndex hs 0) (jsIndex ms 0)]) }
        [CalendarEvent.updateInternalModelValue (InternalModuleValue.range
            [setDateTime day.value (jsIndex hs 0) (jsIndex ms 0)])] :=
  selectDate_range_fresh props s day hs ms hh hm hd (Or.inr (Or.inr ⟨a, b, hmodel⟩))

/-- Witness for C3: with the range Jan 5 - Jan 10 stored, clicking Jan 20
yields the one-element range Jan 20. -/
theorem selectDate_third_click_resets_witness :
    isDisabled sampleRangeProps dayJan20.value = false ∧
      selectDate sampleRangeProps sampleFullRangeState dayJan20 =
        StepResult.ok
          { sampleFullRangeState with
              modelValue := (InternalModuleValue.range [⟨2024, 0, 20, 10, 30⟩]) }
          [CalendarEvent.updateInternalModelValue
            (InternalModuleValue.range [⟨2024, 0, 20, 10, 30⟩])] :=
  ⟨by decide,
    (selectDate_third_click_resets sampleRangeProps sampleFullRangeState dayJan20
        [10, 10] [30, 30] ⟨2024, 0, 5, 10, 30⟩ ⟨2024, 0, 10, 10, 30⟩
        rfl rfl rfl (by decide) rfl).trans (by decide)⟩

/-- C1: in range mode, two consecutive clicks on non-disabled days starting
from an empty or complete selection store a two-element range ordered
earliest-first regardless of click order: the earlier-clicked day's date ends
up first exactly when it is the earlier date. -/
theorem selectDate_two_clicks_ordered (props : CalendarProps) (s : EngineState)
    (day1 day2 : CalendarDay) (hs ms : List Int)
    (hr : props.range = true)
    (hh : s.hours = NumOrArr.arr hs) (hm : s.minutes = NumOrArr.arr ms)
    (hd1 : isDisabled props day1.value = false)
    (hd2 : isDisabled props day2.value = false)
    (hmodel : s.modelValue = InternalModuleValue.none ∨
      s.modelValue = InternalModuleValue.range [] ∨
      ∃ a b, s.modelValue = InternalModuleValue.range [a, b]) :
    ∃ s1 evs1 s2 evs2 r0 r1,
      selectDate props s day1 = StepResult.ok s1 evs1 ∧
      selectDate props s1 day2 = StepResult.ok s2 evs2 ∧
      s2.modelValue = InternalModuleValue.range [r0, r1] ∧
      isDateBefore r1 r0 = false ∧
      dateKey r0 = (if isDateBefore day2.value day1.value = true
                    then dateKey day2.value else dateKey day1.value) ∧
      dateKey r1 = (if isDateBefore day2.value day1.value = true
                    then dateKey day1.value else dateKey day2.value) := by
  have h1 := selectDate_range_fresh props s day1 hs ms hh hm hd1 hmodel
  by_cases hb : isDateBefore day2.value day1.value = true
  · have h2 := selectDate_range_second_before props
      { s with modelValue := (InternalModuleValue.range
          [setDateTime day1.value (jsIndex hs 0) (jsIndex ms 0)]) }
      day2 (setDateTime day1.value (jsIndex hs 0) (jsIndex ms 0)) hs ms
      hh hm hd2 rfl hb
    refine ⟨_, _, _, _, setDateTime day2.value (jsIndex hs 0) (jsIndex ms 0),
      setDateTime (setDateTime day1.value (jsIndex hs 0) (jsIndex ms 0))
        (jsIndex hs 1) (jsIndex ms 1), h1, h2, ?_, ?_, ?_, ?_⟩
    · rw [mapInternalModuleValues_modelValue]
    · exact keyBefore_asymm hb
    · rw [if_pos hb]
      rfl
    · rw [if_pos hb]
      rfl
  · have hb' : isDateBefore day2.value day1.value = false :=
      Bool.not_eq_true _ ▸ Bool.of_not_eq_true hb
    have h2 := selectDate_range_second_after props
      { s with modelValue := (InternalModuleValue.range
          [setDateTime day1.value (jsIndex hs 0) (jsIndex ms 0)]) }
      day2 (setDateTime day1.value (jsIndex hs 0) (jsIndex ms 0)) hs ms
      hh hm hd2 rfl hb'
    refine ⟨_, _, _, _,
      setDateTime (setDateTime day1.value (jsIndex hs 0) (jsIndex ms 0))
        (jsIndex hs 0) (jsIndex ms 0),
      setDateTime day2.value (jsIndex hs 1) (jsIndex ms 1), h1, h2, ?_, ?_, ?_, ?_⟩
    · rw [mapInternalModuleValues_modelValue]
    · exact hb'
    · rw [if_neg hb]
      rfl
    · rw [if_neg hb]
      rfl

/-- Witness for C1: clicking Jan 10 then Jan 5 from an empty model stores an
earliest-first pair. -/
theorem selectDate_two_clicks_ordered_witness :
    isDisabled sampleRangeProps dayJan10.value = false ∧
      ∃ s1 evs1 s2 evs2 r0 r1,
        selectDate sampleRangeProps sampleRangeState dayJan10 =
          StepResult.ok s1 evs1 ∧
        selectDate sampleRangeProps s1 dayJan5 = StepResult.ok s2 evs2 ∧
        s2.modelValue = InternalModuleValue.range [r0, r1] ∧
        isDateBefore r1 r0 = false ∧
        dateKey r0 = (if isDateBefore dayJan5.value dayJan10.value = true
                      then dateKey dayJan5.value else dateKey dayJan10.value) ∧
        dateKey r1 = (if isDateBefore dayJan5.value dayJan10.value = true
                      then dateKey dayJan10.value else dateKey dayJan5.value) :=
  ⟨by decide,
    selectDate_two_clicks_ordered sampleRangeProps sampleRangeState dayJan10 dayJan5
      [10, 10] [30, 30] rfl rfl rfl (by decide) (by decide) (Or.inl rfl)⟩

/-- C4: in range mode with auto-apply configured, a click on a non-disabled
day emits `autoApply` exactly once when the resulting range has both
endpoints, and not at all when it leaves a single endpoint. -/
theorem selectDate_autoApply_on_completion (props : CalendarProps)
    (s : EngineState) (day : CalendarDay) (hs ms : List Int)
    (hr : props.range = true) (hauto : props.autoApply = true)
    (hh : s.hours = NumOrArr.arr hs) (hm : s.minutes = NumOrArr.arr ms)
    (hd : isDisabled props day.value = false)
    (hmodel : s.modelValue = InternalModuleValue.none ∨
      ∃ l, s.modelValue = InternalModuleValue.range l ∧ l.length ≤ 2) :
    ∃ s1 evs l1,
      selectDate props s day = StepResult.ok s1 evs ∧
      s1.modelValue = InternalModuleValue.range l1 ∧
      evs.count CalendarEvent.autoApply = (if l1.length = 2 then 1 else 0) := by
  rcases hmodel with h0 | ⟨l, h0, hlen⟩
  · refine ⟨_, _, [setDateTime day.value (jsIndex hs 0) (jsIndex ms 0)],
      selectDate_range_fresh props s day hs ms hh hm hd (Or.inl h0), rfl, ?_⟩
    simp [List.count_cons]
  · rcases l with _ | ⟨x, _ | ⟨y, _ | ⟨z, t⟩⟩⟩
    · refine ⟨_, _, [setDateTime day.value (jsIndex hs 0) (jsIndex ms 0)],
        selectDate_range_fresh props s day hs ms hh hm hd (Or.inr (Or.inl h0)), rfl, ?_⟩
      simp [List.count_cons]
    · by_cases hb : isDateBefore day.value x = true
      · refine ⟨_, _, [setDateTime day.value (jsIndex hs 0) (jsIndex ms 0),
          setDateTime x (jsIndex hs 1) (jsIndex ms 1)],
          selectDate_range_second_before props s day x hs ms hh hm hd h0 hb,
          mapInternalModuleValues_modelValue _, ?_⟩
        simp [hauto, List.count_cons, List.count_append]
      · have hb' : isDateBefore day.value x = false :=
          Bool.not_eq_true _ ▸ Bool.of_not_eq_true hb
        refine ⟨_, _, [setDateTime x (jsIndex hs 0) (jsIndex ms 0),
          setDateTime day.value (jsIndex hs 1) (jsIndex ms 1)],
          selectDate_range_second_after props s day x hs ms hh hm hd h0 hb',
          mapInternalModuleValues_modelValue _, ?_⟩
        simp [hauto, List.count_cons, List.count_append]
    · refine ⟨_, _, [setDateTime day.value (jsIndex hs 0) (jsIndex ms 0)],
        selectDate_range_fresh props s day hs ms hh hm hd
          (Or.inr (Or.inr ⟨x, y, h0⟩)), rfl, ?_⟩
      simp [List.count_cons]
    · simp at hlen

/-- Witness for C4: completing a one-endpoint range fires `autoApply` exactly
once. -/
theorem selectDate_autoApply_on_completion_witness :
    isDisabled sampleRangeProps dayJan20.value = false ∧
      ∃ s1 evs l1,
        selectDate sampleRangeProps sampleOneRangeState dayJan20 =
          StepResult.ok s1 evs ∧
        s1.modelValue = InternalModuleValue.range l1 ∧
        evs.count CalendarEvent.autoApply = (if l1.length = 2 then 1 else 0) :=
  ⟨by decide,
    selectDate_autoApply_on_completion sampleRangeProps sampleOneRangeState dayJan20
      [10, 10] [30, 30] rfl rfl rfl rfl (by decide)
      (Or.inr ⟨[⟨2024, 0, 10, 10, 30⟩], rfl, by decide⟩)⟩

/-- C10: the branch taken by `selectDate` is decided by the runtime shape of
the hours/minutes state, not by the range flag: with the range flag set but a
scalar hours or minutes value the call is a complete no-op, and with pair
hours and minutes the range-insertion branch runs and writes a range even
with the range flag cleared. -/
theorem selectDate_branch_by_shape (props : CalendarProps) (s : EngineState)
    (day : CalendarDay) :
    (props.range = true →
      (isNumberArray s.hours = false ∨ isNumberArray s.minutes = false) →
      selectDate props s day = StepResult.ok s []) ∧
    (props.range = false →
      ∀ hs ms, s.hours = NumOrArr.arr hs → s.minutes = NumOrArr.arr ms →
      isDisabled props day.value = false →
      (s.modelValue = InternalModuleValue.none ∨
        s.modelValue = InternalModuleValue.range [] ∨
        (∃ c, s.modelValue = InternalModuleValue.range [c]) ∨
        ∃ a b, s.modelValue = InternalModuleValue.range [a, b]) →
      ∃ s1 evs ds, selectDate props s day = StepResult.ok s1 evs ∧
        s1.modelValue = InternalModuleValue.range ds ∧
        CalendarEvent.updateInternalModelValue (InternalModuleValue.range ds) ∈ evs) := by
  constructor
  · intro hr hscalar
    cases hdis : isDisabled props day.value
    · rcases hscalar with hsc | hsc <;> simp [selectDate, hdis, hr, hsc]
    · simp [selectDate, hdis]
  · intro hr hs ms hh hm hd hmodel
    rcases hmodel with h0 | h0 | ⟨c, h0⟩ | ⟨a, b, h0⟩
    · exact ⟨_, _, _, selectDate_range_fresh props s day hs ms hh hm hd (Or.inl h0),
        rfl, by simp⟩
    · exact ⟨_, _, _,
        selectDate_range_fresh props s day hs ms hh hm hd (Or.inr (Or.inl h0)),
        rfl, by simp⟩
    · by_cases hb : isDateBefore day.value c = true
      · exact ⟨_, _, _,
          selectDate_range_second_before props s day c hs ms hh hm hd h0 hb,
          mapInternalModuleValues_modelValue _, by simp⟩
      · have hb' : isDateBefore day.value c = false :=
          Bool.not_eq_true _ ▸ Bool.of_not_eq_true hb
        exact ⟨_, _, _,
          selectDate_range_second_after props s day c hs ms hh hm hd h0 hb',
          mapInternalModuleValues_modelValue _, by simp⟩
    · exact ⟨_, _, _,
        selectDate_range_fresh props s day hs ms hh hm hd
          (Or.inr (Or.inr ⟨a, b, h0⟩)), rfl, by simp⟩

/-- Witness for C10: with the range flag set but scalar hours, a click does
nothing; with the range flag cleared but pair-shaped hours and minutes, a
click writes a range value. -/
theorem selectDate_branch_by_shape_witness :
    (selectDate sampleRangeProps
      { sampleRangeState with hours := NumOrArr.num 5 } dayJan10 =
        StepResult.ok { sampleRangeState with hours := NumOrArr.num 5 } []) ∧
    ∃ s1 evs ds,
      selectDate sampleSingleProps sampleRangeState dayJan10 =
        StepResult.ok s1 evs ∧
      s1.modelValue = InternalModuleValue.range ds ∧
      CalendarEvent.updateInternalModelValue (InternalModuleValue.range ds) ∈ evs :=
  ⟨(selectDate_branch_by_shape sampleRangeProps
      { sampleRangeState with hours := NumOrArr.num 5 } dayJan10).1 rfl (Or.inl rfl),
   (selectDate_branch_by_shape sampleSingleProps sampleRangeState dayJan10).2 rfl
      [10, 10] [30, 30] rfl rfl (by decide) (Or.inl rfl)⟩

/-- C6: on an existing model value, `updateTime` replaces exactly the hour
and minute components of the stored date(s) with the current (post-update)
hour/minute state — per endpoint for a range pair, as a scalar for a single
date — while year, month and day stay unchanged. -/
theorem updateTime_preserves_date_components (props : CalendarProps)
    (s : EngineState) (now : SimpleDate) (value : NumOrArr) (isHours : Bool) :
    (∀ a b h0 h1 m0 m1,
      s.modelValue = InternalModuleValue.range [a, b] →
      (if isHours then value else s.hours) = NumOrArr.arr [h0, h1] →
      (if isHours then s.minutes else value) = NumOrArr.arr [m0, m1] →
      (updateTime props s now value isHours).1.modelValue =
        InternalModuleValue.range
          [⟨a.year, a.month, a.day, h0, m0⟩, ⟨b.year, b.month, b.day, h1, m1⟩]) ∧
    (∀ d h m,
      props.range = false →
      s.modelValue = InternalModuleValue.single d →
      (if isHours then value else s.hours) = NumOrArr.num h →
      (if isHours then s.minutes else value) = NumOrArr.num m →
      (updateTime props s now value isHours).1.modelValue =
        InternalModuleValue.single ⟨d.year, d.month, d.day, h, m⟩) := by
  constructor
  · intro a b h0 h1 m0 m1 hmv hH hM
    cases isHours <;>
      simp only [if_true, if_false, Bool.false_eq_true, ite_true, ite_false] at hH hM <;>
      simp [updateTime, truthy, hmv, handleTimeUpdate, isRange, hH, hM, isNumberArray,
        writeModel, rangeList, NumOrArr.asArr, jsDateIndex, jsIndex,
        mapInternalModuleValues, setDateTime]
  · intro d h m hr hmv hH hM
    cases isHours <;>
      simp only [if_true, if_false, Bool.false_eq_true, ite_true, ite_false] at hH hM <;>
      simp [updateTime, truthy, hmv, handleTimeUpdate, isRange, hr, hH, hM, isNumberArray,
        writeModel, castToDate, NumOrArr.asNum, mapInternalModuleValues, setDateTime]

/-- Witness for C6: on the stored range Jan 5 - Jan 10, updating hours to
`[7, 8]` rewrites only the hour components of both endpoints; on a stored
single date, updating hours to `15` rewrites only its hour component. -/
theorem updateTime_preserves_date_components_witness :
    (updateTime sampleRangeProps sampleFullRangeState sampleNow
        (NumOrArr.arr [7, 8]) true).1.modelValue =
      InternalModuleValue.range [⟨2024, 0, 5, 7, 30⟩, ⟨2024, 0, 10, 8, 30⟩] ∧
    (updateTime sampleSingleProps
        { sampleRangeState with
            hours := NumOrArr.num 10, minutes := NumOrArr.num 0,
            modelValue := InternalModuleValue.single ⟨2024, 2, 5, 10, 0⟩ }
        sampleNow (NumOrArr.num 15) true).1.modelValue =
      InternalModuleValue.single ⟨2024, 2, 5, 15, 0⟩ :=
  ⟨(updateTime_preserves_date_components sampleRangeProps sampleFullRangeState
      sampleNow (NumOrArr.arr [7, 8]) true).1
      ⟨2024, 0, 5, 10, 30⟩ ⟨2024, 0, 10, 10, 30⟩ 7 8 30 30 rfl rfl rfl,
   (updateTime_preserves_date_components sampleSingleProps
      { sampleRangeState with
          hours := NumOrArr.num 10, minutes := NumOrArr.num 0,
          modelValue := InternalModuleValue.single ⟨2024, 2, 5, 10, 0⟩ }
      sampleNow (NumOrArr.num 15) true).2
      ⟨2024, 2, 5, 10, 0⟩ 15 0 rfl rfl rfl rfl⟩

/-- C8: when the panel plus anchor height exceeds the free space below the
anchor but not the space above it, `positionTopBottom` places the panel
above: `openOnTop` becomes true and the top becomes the anchor offset minus
the panel height minus the configured offset. -/
theorem positionTopBottom_flips_above (props : PositionProps)
    (anchor : Option AnchorGeometry)
    (height inputHeight freeSpaceBottom top offset : ℚ) (st : PositionState)
    (hBelow : height + inputHeight > freeSpaceBottom)
    (hAbove : height + inputHeight ≤ top) :
    (positionTopBottom props anchor height inputHeight freeSpaceBottom top offset
        st).openOnTop = true ∧
    (positionTopBottom props anchor height inputHeight freeSpaceBottom top offset
        st).menuPosition.top = offset - height - props.offset := by
  have hnot : ¬ top < height + inputHeight := not_lt.mpr hAbove
  constructor <;>
    simp [positionTopBottom, hnot, hBelow]

/-- Witness for C8: a 300-unit panel on a 40-unit anchor with 100 units free
below and 400 units above is placed on top. -/
theorem positionTopBottom_flips_above_witness :
    ((300 : ℚ) + 40 > 100) ∧ ((300 : ℚ) + 40 ≤ 400) ∧
    (positionTopBottom samplePosProps (some sampleAnchorHigh) 300 40 100 400 500
        samplePosState).openOnTop = true ∧
    (positionTopBottom samplePosProps (some sampleAnchorHigh) 300 40 100 400 500
        samplePosState).menuPosition.top = 500 - 300 - samplePosProps.offset :=
  ⟨by norm_num, by norm_num,
    positionTopBottom_flips_above samplePosProps (some sampleAnchorHigh)
      300 40 100 400 500 samplePosState (by norm_num) (by norm_num)⟩

/-- Counterexample to C9 as stated: with the anchor of `sampleAnchorHigh`
(top 100, height 40) in a 1000-unit viewport, the anchor top (100) does not
exceed the free space below (860), and `setInitialPosition` sets the panel
top to the anchor's top offset (100) — not to the anchor's bottom
(offset + height = 140) as the claim states. -/
theorem setInitialPosition_not_anchor_bottom :
    (setInitialPosition samplePosProps 1000 (some sampleAnchorHigh)
        samplePosState).menuPosition.top ≠
      sampleAnchorHigh.offsetTop + sampleAnchorHigh.height := by
  have htop : (setInitialPosition samplePosProps 1000 (some sampleAnchorHigh)
      samplePosState).menuPosition.top =
      (if (100 : ℚ) > 1000 - 100 - 40 then 100 - maxHeight else 100) := by
    simp [setInitialPosition, setPositioning_top, sampleAnchorHigh, samplePosState]
  rw [htop]
  norm_num [sampleAnchorHigh, maxHeight]

/-- C9 (amended): `setInitialPosition` computes the free space below the
anchor from the viewport height; when the anchor's viewport top exceeds it,
the panel top becomes the anchor's top offset minus `maxHeight` (390),
otherwise the panel top becomes the anchor's top offset itself (not the
anchor's bottom); in both cases the configured horizontal alignment is
applied. -/
theorem setInitialPosition_characterization (props : PositionProps)
    (innerHeight : ℚ) (a : AnchorGeometry) (st : PositionState) :
    ((setInitialPosition props innerHeight (some a) st).menuPosition.top =
      if a.rectTop > innerHeight - a.rectTop - a.height
      then a.offsetTop - maxHeight else a.offsetTop) ∧
    ((setInitialPosition props innerHeight (some a) st).menuPosition.left =
      match props.position with
      | OpenPosition.left => a.offsetLeft
      | OpenPosition.right => a.offsetLeft + a.width
      | OpenPosition.center => a.offsetLeft + a.width / 2) ∧
    ((setInitialPosition props innerHeight (some a) st).menuPosition.transform =
      match props.position with
      | OpenPosition.left => MenuTransform.translateX 0
      | OpenPosition.right => MenuTransform.translateX (-100)
      | OpenPosition.center => MenuTransform.translateX (-50)) := by
  rcases hp : props.position <;>
    refine ⟨?_, ?_, ?_⟩ <;>
      simp [setInitialPosition, setPositioning, setPositionLeft, setPositionRight, hp]

/-- Counterexample to C7 as stated: in range mode, the state reached from
initialization by the single operation `updateTime(5, hours)` — an operation
the engine's interface accepts, since `updateTime` takes
`number | number[]` — has scalar hours while the range flag is set, so the
shape of the hour/minute state does not match the range-mode flag in every
reachable state. -/
theorem shape_invariant_counterexample :
    shapeMatches sampleRangeProps
      (List.foldl (applyOp sampleRangeProps)
        (initCalendar sampleRangeProps sampleNow InternalModuleValue.none)
        [CalendarOp.setTime sampleNow (NumOrArr.num 5) true]) = false := by
  decide

/-- C7 (amended): the shape of the hour/minute state matches the range-mode
flag after initialization — provided the initial model value and any
start-time seed have shapes matching the flag — and it is preserved by every
sequence of selectDate, setHoverDate and updateTime operations in which each
updateTime call supplies a value whose scalar/pair shape matches the flag;
an updateTime call with a mismatched-shape value breaks the invariant. -/
theorem shape_invariant_preserved (props : CalendarProps) (now : SimpleDate)
    (im : InternalModuleValue) (ops : List CalendarOp)
    (him : initModelShapeOk props im = true)
    (hst : startTimeShapeOk props = true)
    (hops : ∀ op ∈ ops, shapeOk props op = true) :
    shapeMatches props (ops.foldl (applyOp props) (initCalendar props now im)) = true :=
  foldl_applyOp_shape props ops (initCalendar props now im)
    (initCalendar_shape props now im him hst) hops

/-- Witness for the amended C7: a click, a pair-shaped time update and a
hover starting from an empty range-mode model keep hours and minutes
pair-shaped. -/
theorem shape_invariant_preserved_witness :
    initModelShapeOk sampleRangeProps InternalModuleValue.none = true ∧
    startTimeShapeOk sampleRangeProps = true ∧
    shapeMatches sampleRangeProps
      (List.foldl (applyOp sampleRangeProps)
        (initCalendar sampleRangeProps sampleNow InternalModuleValue.none)
        [CalendarOp.select dayJan10,
         CalendarOp.setTime sampleNow (NumOrArr.arr [7, 8]) true,
         CalendarOp.hover dayJan5]) = true :=
  ⟨by decide, by decide,
    shape_invariant_preserved sampleRangeProps sampleNow InternalModuleValue.none
      [CalendarOp.select dayJan10,
       CalendarOp.setTime sampleNow (NumOrArr.arr [7, 8]) true,
       CalendarOp.hover dayJan5] (by decide) (by decide)
      (by intro op hop
          fin_cases hop <;> rfl)⟩

end DatePicker
